import Mathlib

/-!
# Verification of `service-proxy.go` (package `service_proxy`)

A shallow embedding of the single source file `src/service-proxy.go` of the
repository `zhangsq-ax/service-proxy`, together with the standard-library
functions it observably depends on (`net/url` escaping and query encoding,
`net/http` request construction, `textproto` header canonicalisation).

Modelling conventions:
* Go strings and byte slices are byte sequences; both are modelled as
  `GoStr := List Nat`, each element one byte (theorems that need the byte
  bound carry an explicit `< 256` hypothesis).
* Go maps (`map[string]string`, `map[string]ServiceApi`, `http.Header`)
  are modelled as association lists with distinct keys; a Go map is an
  unordered key→value function, so any loop over a map whose result is
  order-independent (given distinct keys) is modelled directly on the list.
* Fallible Go functions return `Except GoStr` / pair an `Option GoStr`
  error, mirroring Go's `(T, error)` returns.
* In-place mutation of `*http.Request` is modelled by returning the updated
  request value.
-/

namespace ServiceProxy

/-- Go strings / byte slices as byte sequences. -/
abbrev GoStr := List Nat

/-- Bytes of an ASCII string literal (all literals used here are ASCII,
where UTF-8 bytes coincide with code points). -/
def strBytes (s : String) : GoStr := s.toList.map Char.toNat

/-! ## net/url escaping (url.shouldEscape / url.escape / url.unescape)

Faithful to Go's `net/url` for the three modes the source exercises:
`encodeQueryComponent` (via `Values.Encode` / `ParseQuery`),
`encodePath` (via `URL.EscapedPath` inside `URL.String`), and
`encodeHost` (via `URL.String`). -/

/-- ASCII alphanumeric test, `'a' <= c && c <= 'z' || 'A' <= c && c <= 'Z' || '0' <= c && c <= '9'`. -/
def isAlphaNum (c : Nat) : Bool :=
  (97 ≤ c && c ≤ 122) || (65 ≤ c && c ≤ 90) || (48 ≤ c && c ≤ 57)

/-- The four unreserved marks `- _ . ~` of url.shouldEscape. -/
def isMark (c : Nat) : Bool :=
  c == 45 || c == 95 || c == 46 || c == 126

/-- Model of `url.shouldEscape(c, encodeQueryComponent)`: in query components every
reserved character is escaped, so only alphanumerics and `- _ . ~` survive. -/
def shouldEscapeQuery (c : Nat) : Bool :=
  if isAlphaNum c then false
  else if isMark c then false
  else true

/-- Model of `url.shouldEscape(c, encodePath)`: of the reserved set
`$ & + , / : ; = ? @` only `?` is escaped in a path. -/
def shouldEscapePath (c : Nat) : Bool :=
  if isAlphaNum c then false
  else if isMark c then false
  else if c == 36 || c == 38 || c == 43 || c == 44 || c == 47 || c == 58 ||
          c == 59 || c == 61 || c == 63 || c == 64 then c == 63
  else true

/-- Model of `url.shouldEscape(c, encodeHost)`: hosts additionally allow
`! $ & ' ( ) * + , ; = : [ ] < > "`. -/
def shouldEscapeHost (c : Nat) : Bool :=
  if isAlphaNum c then false
  else if c == 33 || c == 36 || c == 38 || c == 39 || c == 40 || c == 41 ||
          c == 42 || c == 43 || c == 44 || c == 59 || c == 61 || c == 58 ||
          c == 91 || c == 93 || c == 60 || c == 62 || c == 34 then false
  else if isMark c then false
  else true

/-- Upper-case hexadecimal digit, `"0123456789ABCDEF"[n]`. -/
def upperHexDigit (n : Nat) : Nat :=
  if n < 10 then 48 + n else 55 + n

/-- Model of `url.ishex` + digit value: `Option` is `none` on a non-hex byte. -/
def hexVal (c : Nat) : Option Nat :=
  if 48 ≤ c && c ≤ 57 then some (c - 48)
  else if 97 ≤ c && c ≤ 102 then some (c - 87)
  else if 65 ≤ c && c ≤ 70 then some (c - 55)
  else none

/-- One byte of `url.escape(s, mode)`: kept raw when `should` rejects it;
in query mode (`plusSpace = true`) a space becomes `+`; otherwise `%XX`
with upper-case hex digits. -/
def escByteWith (should : Nat → Bool) (plusSpace : Bool) (c : Nat) : GoStr :=
  if !should c then [c]
  else if plusSpace && c == 32 then [43]
  else [37, upperHexDigit (c / 16 % 16), upperHexDigit (c % 16)]

/-- Model of `url.escape(s, mode)`. -/
def escapeWith (should : Nat → Bool) (plusSpace : Bool) (s : GoStr) : GoStr :=
  s.flatMap (escByteWith should plusSpace)

/-- Model of `url.QueryEscape` = `escape(s, encodeQueryComponent)`. -/
def queryEscape : GoStr → GoStr := escapeWith shouldEscapeQuery true

/-- Model of `escape(s, encodePath)` as used by `URL.EscapedPath`. -/
def pathEscape : GoStr → GoStr := escapeWith shouldEscapePath false

/-- Model of `escape(s, encodeHost)` as used by `URL.String`. -/
def hostEscape : GoStr → GoStr := escapeWith shouldEscapeHost false

/-- Model of `url.unescape(s, encodeQueryComponent)` (= `url.QueryUnescape`):
`%XX` decodes a byte (failing on a malformed escape), `+` decodes to a
space, everything else passes through.  `none` models the `EscapeError`
Go reports after its validity scan. -/
def unescapeQuery : GoStr → Option GoStr
  | [] => some []
  | c :: rest =>
    if c = 37 then
      match rest with
      | a :: b :: rest' =>
        match hexVal a, hexVal b with
        | some hi, some lo => (fun r => (16 * hi + lo) :: r) <$> unescapeQuery rest'
        | _, _ => none
      | _ => none
    else if c = 43 then (fun r => (32 : Nat) :: r) <$> unescapeQuery rest
    else (fun r => c :: r) <$> unescapeQuery rest
  termination_by structural s => s

theorem hexVal_upperHexDigit {n : Nat} (h : n < 16) :
    hexVal (upperHexDigit n) = some n := by
  interval_cases n <;> decide

theorem shouldEscapeQuery_false {c : Nat} (h : shouldEscapeQuery c = false) :
    isAlphaNum c = true ∨ isMark c = true := by
  by_cases h1 : isAlphaNum c = true
  · exact Or.inl h1
  · by_cases h2 : isMark c = true
    · exact Or.inr h2
    · exfalso
      unfold shouldEscapeQuery at h
      rw [if_neg h1, if_neg h2] at h
      simp at h

/-- A byte that query-escaping leaves raw is alphanumeric or a mark, hence
in particular not `%`, `+`, `&`, `=`, or `;`. -/
theorem unescaped_byte_ne {c : Nat} (h : shouldEscapeQuery c = false) :
    c ≠ 37 ∧ c ≠ 43 ∧ c ≠ 38 ∧ c ≠ 61 ∧ c ≠ 59 := by
  rcases shouldEscapeQuery_false h with h' | h' <;>
    · simp only [isAlphaNum, isMark, Bool.or_eq_true, Bool.and_eq_true,
        decide_eq_true_eq, beq_iff_eq] at h'
      omega

theorem upperHexDigit_ne {n : Nat} (h : n < 16) :
    upperHexDigit n ≠ 38 ∧ upperHexDigit n ≠ 61 ∧ upperHexDigit n ≠ 59 := by
  unfold upperHexDigit
  split <;> omega

/-- Bytes produced by query-escaping never include the separators
`&` (38), `=` (61) or `;` (59). -/
theorem queryEscape_no_separator {s : GoStr} {x : Nat}
    (hx : x ∈ queryEscape s) : x ≠ 38 ∧ x ≠ 61 ∧ x ≠ 59 := by
  induction s with
  | nil => simp [queryEscape, escapeWith] at hx
  | cons c t ih =>
    rw [queryEscape, escapeWith, List.flatMap_cons, List.mem_append] at hx
    rcases hx with hx | hx
    · unfold escByteWith at hx
      by_cases hesc : shouldEscapeQuery c
      · rw [hesc] at hx
        by_cases hsp : c = 32
        · subst hsp
          simp at hx
          omega
        · have h32 : (c == 32) = false := by simp [hsp]
          simp only [Bool.not_true, Bool.false_eq_true, if_false,
            Bool.true_and, h32, List.mem_cons, List.not_mem_nil,
            or_false] at hx
          rcases hx with rfl | rfl | rfl
          · omega
          · exact upperHexDigit_ne (Nat.mod_lt _ (by omega))
          · exact upperHexDigit_ne (Nat.mod_lt _ (by omega))
      · rw [Bool.not_eq_true] at hesc
        rw [hesc] at hx
        simp only [Bool.not_false, if_pos, List.mem_singleton] at hx
        subst hx
        have h' := unescaped_byte_ne hesc
        exact ⟨h'.2.2.1, h'.2.2.2.1, h'.2.2.2.2⟩
    · exact ih hx

theorem unescapeQuery_cons (c : Nat) (t : GoStr) :
    unescapeQuery (c :: t) =
      if c = 37 then
        (match t with
        | a :: b :: rest' =>
          match hexVal a, hexVal b with
          | some hi, some lo => (fun r => (16 * hi + lo) :: r) <$> unescapeQuery rest'
          | _, _ => none
        | _ => none)
      else if c = 43 then (fun r => (32 : Nat) :: r) <$> unescapeQuery t
      else (fun r => c :: r) <$> unescapeQuery t := by
  conv_lhs => unfold unescapeQuery
  rfl

theorem unescapeQuery_cons_raw {c : Nat} (h37 : c ≠ 37) (h43 : c ≠ 43)
    (t : GoStr) :
    unescapeQuery (c :: t) = (fun r => c :: r) <$> unescapeQuery t := by
  rw [unescapeQuery_cons, if_neg h37, if_neg h43]

theorem unescapeQuery_cons_plus (t : GoStr) :
    unescapeQuery (43 :: t) = (fun r => (32 : Nat) :: r) <$> unescapeQuery t := by
  rw [unescapeQuery_cons, if_neg (by omega : ¬ (43 : Nat) = 37), if_pos rfl]

theorem unescapeQuery_cons_pct {a b hi lo : Nat} (ha : hexVal a = some hi)
    (hb : hexVal b = some lo) (t : GoStr) :
    unescapeQuery (37 :: a :: b :: t) =
      (fun r => (16 * hi + lo) :: r) <$> unescapeQuery t := by
  rw [unescapeQuery_cons, if_pos rfl]
  change (match hexVal a, hexVal b with
    | some hi, some lo => (fun r => (16 * hi + lo) :: r) <$> unescapeQuery t
    | _, _ => none) = _
  rw [ha, hb]

/-- Round trip for a single escaped byte prepended to an escaped tail. -/
theorem unescapeQuery_escByte {c : Nat} (hc : c < 256) (rest : GoStr) :
    unescapeQuery (escByteWith shouldEscapeQuery true c ++ rest) =
      (fun r => c :: r) <$> unescapeQuery rest := by
  unfold escByteWith
  by_cases hesc : shouldEscapeQuery c
  · rw [hesc]
    by_cases hsp : c = 32
    · subst hsp
      simp only [Bool.not_true, Bool.false_eq_true, if_false, Bool.true_and,
        beq_self_eq_true, if_true, List.cons_append, List.nil_append]
      exact unescapeQuery_cons_plus rest
    · have h32 : (c == 32) = false := by simp [hsp]
      simp only [Bool.not_true, Bool.false_eq_true, if_false, Bool.true_and,
        h32, List.cons_append, List.nil_append]
      rw [unescapeQuery_cons_pct (hexVal_upperHexDigit (Nat.mod_lt _ (by omega)))
        (hexVal_upperHexDigit (Nat.mod_lt _ (by omega)))]
      have : 16 * (c / 16 % 16) + c % 16 = c := by omega
      rw [this]
  · rw [Bool.not_eq_true] at hesc
    rw [hesc]
    simp only [Bool.not_false, if_pos, List.cons_append, List.nil_append]
    have h' := unescaped_byte_ne hesc
    exact unescapeQuery_cons_raw h'.1 h'.2.1 rest

/-- Round trip: `QueryUnescape (QueryEscape s) = s` for byte strings. -/
theorem unescape_queryEscape {s : GoStr} (hs : ∀ c ∈ s, c < 256) :
    unescapeQuery (queryEscape s) = some s := by
  induction s with
  | nil => rfl
  | cons c t ih =>
    rw [queryEscape, escapeWith, List.flatMap_cons]
    rw [show t.flatMap (escByteWith shouldEscapeQuery true) = queryEscape t
      from rfl]
    rw [unescapeQuery_escByte (hs c (List.mem_cons_self _ _)),
      ih (fun x hx => hs x (List.mem_cons_of_mem _ hx))]
    rfl

/-! ## Query string encoding and parsing (url.Values.Encode / url.ParseQuery)

`url.Values` (a Go map from key to value list) is modelled flattened, as the
list of key/value pairs in scan order; for the distinct single-valued keys
produced by `getUrl` this is exact. -/

/-- Model of `strings.Cut(s, sep)` for a one-byte separator: the part before the
first occurrence, the part after it, and whether it was found. -/
def cut (sep : Nat) : GoStr → GoStr × GoStr × Bool
  | [] => ([], [], false)
  | c :: rest =>
    if c = sep then ([], rest, true)
    else ((c :: (cut sep rest).1, (cut sep rest).2.1, (cut sep rest).2.2))

theorem cut_not_mem {sep : Nat} {s : GoStr} (h : sep ∉ s) :
    cut sep s = (s, [], false) := by
  induction s with
  | nil => rfl
  | cons c rest ih =>
    have hc : ¬ c = sep := fun hc => h (by subst hc; exact List.mem_cons_self _ _)
    unfold cut
    rw [if_neg hc, ih (fun hm => h (List.mem_cons_of_mem _ hm))]

theorem cut_append {sep : Nat} {xs : GoStr} (h : sep ∉ xs) (ys : GoStr) :
    cut sep (xs ++ sep :: ys) = (xs, ys, true) := by
  induction xs with
  | nil => simp [cut]
  | cons c rest ih =>
    have hc : ¬ c = sep := fun hc => h (by subst hc; exact List.mem_cons_self _ _)
    rw [List.cons_append]
    unfold cut
    rw [if_neg hc, ih (fun hm => h (List.mem_cons_of_mem _ hm))]

/-- One key/value pair of `url.parseQuery`: split the chunk at the first
`=` and `QueryUnescape` both halves (`none` models the skipped pair). -/
def parseChunk (chunk : GoStr) : Option (GoStr × GoStr) :=
  match unescapeQuery (cut 61 chunk).1, unescapeQuery (cut 61 chunk).2.1 with
  | some k, some v => some (k, v)
  | _, _ => none

/-- The loop of `url.parseQuery`, structurally recursive on a fuel bound
(`fuel ≥ length of the query` makes it exact): repeatedly cut at `&`,
skip chunks containing `;` (the "invalid semicolon separator" case), skip
empty chunks and chunks whose unescaping fails, and collect the rest.
The accumulated `err` of the Go loop does not influence the returned map. -/
def parseQueryAux : Nat → GoStr → List (GoStr × GoStr)
  | _, [] => []
  | 0, _ :: _ => []
  | fuel + 1, x :: xs =>
    if 59 ∈ (cut 38 (x :: xs)).1 then parseQueryAux fuel (cut 38 (x :: xs)).2.1
    else if (cut 38 (x :: xs)).1 = [] then parseQueryAux fuel (cut 38 (x :: xs)).2.1
    else match parseChunk (cut 38 (x :: xs)).1 with
      | some p => p :: parseQueryAux fuel (cut 38 (x :: xs)).2.1
      | none => parseQueryAux fuel (cut 38 (x :: xs)).2.1
  termination_by structural fuel _ => fuel

/-- Model of `url.ParseQuery`, flattened to key/value pairs in scan order. -/
def parseQueryBytes (q : GoStr) : List (GoStr × GoStr) := parseQueryAux q.length q

/-- Lexicographic byte order, the order of Go's `sort.Strings` used by
`url.Values.Encode`. -/
def keyLe : GoStr → GoStr → Bool
  | [], _ => true
  | _ :: _, [] => false
  | a :: as, b :: bs => if a < b then true else if b < a then false else keyLe as bs

/-- The key sort of `url.Values.Encode`.  `sort.Strings` sorts the
(distinct) keys of the map; an insertion sort by the same order yields the
same sorted sequence. -/
def sortByKey (l : List (GoStr × GoStr)) : List (GoStr × GoStr) :=
  List.insertionSort (fun p q => keyLe p.1 q.1 = true) l

/-- One `k=v` chunk of `url.Values.Encode`. -/
def encChunk (p : GoStr × GoStr) : GoStr :=
  queryEscape p.1 ++ 61 :: queryEscape p.2

/-- Join chunks with `&`.  `Values.Encode` writes `&` whenever the buffer
is nonempty; since every chunk contains `=`, no chunk is empty and this is
the same as interleaving `&` between chunks. -/
def joinAmp : List GoStr → GoStr
  | [] => []
  | [c] => c
  | c :: cs => c ++ 38 :: joinAmp cs

/-- Model of `url.Values.Encode` on a distinct-key map: sort by key, escape, join. -/
def valuesEncode (l : List (GoStr × GoStr)) : GoStr :=
  joinAmp ((sortByKey l).map encChunk)

/-- All bytes of both components below 256. -/
def bytesOkPair (p : GoStr × GoStr) : Prop :=
  (∀ c ∈ p.1, c < 256) ∧ (∀ c ∈ p.2, c < 256)

instance (p : GoStr × GoStr) : Decidable (bytesOkPair p) := by
  unfold bytesOkPair
  infer_instance

theorem encChunk_ne_nil (p : GoStr × GoStr) : encChunk p ≠ [] := by
  unfold encChunk
  simp

theorem encChunk_no_sep {p : GoStr × GoStr} {x : Nat} (hx : x ∈ encChunk p) :
    x ≠ 38 ∧ x ≠ 59 := by
  unfold encChunk at hx
  rw [List.mem_append, List.mem_cons] at hx
  rcases hx with hx | hx | hx
  · have h := queryEscape_no_separator hx
    exact ⟨h.1, h.2.2⟩
  · omega
  · have h := queryEscape_no_separator hx
    exact ⟨h.1, h.2.2⟩

theorem parseChunk_encChunk {p : GoStr × GoStr} (hp : bytesOkPair p) :
    parseChunk (encChunk p) = some p := by
  unfold parseChunk encChunk
  rw [cut_append (fun hm => (queryEscape_no_separator hm).2.1 rfl)]
  simp only
  rw [unescape_queryEscape hp.1, unescape_queryEscape hp.2]

theorem parseQueryAux_nil (fuel : Nat) : parseQueryAux fuel [] = [] := by
  cases fuel <;> rfl

/-- A lone well-formed chunk parses to its pair. -/
theorem parseQueryAux_single {s : GoStr} {p : GoStr × GoStr} (h38 : 38 ∉ s)
    (h59 : 59 ∉ s) (hne : s ≠ []) (hchunk : parseChunk s = some p)
    (fuel : Nat) : parseQueryAux (fuel + 1) s = [p] := by
  obtain ⟨x, xs, rfl⟩ := List.exists_cons_of_ne_nil hne
  conv_lhs => unfold parseQueryAux
  simp only [cut_not_mem h38]
  rw [if_neg h59, if_neg hne, hchunk, parseQueryAux_nil]

/-- A well-formed chunk followed by `&` and a tail parses to its pair
followed by the parse of the tail. -/
theorem parseQueryAux_chunk {s : GoStr} {p : GoStr × GoStr} (h38 : 38 ∉ s)
    (h59 : 59 ∉ s) (hne : s ≠ []) (hchunk : parseChunk s = some p)
    (fuel : Nat) (t : GoStr) :
    parseQueryAux (fuel + 1) (s ++ 38 :: t) = p :: parseQueryAux fuel t := by
  obtain ⟨x, xs, rfl⟩ := List.exists_cons_of_ne_nil hne
  rw [List.cons_append]
  conv_lhs => unfold parseQueryAux
  rw [show (x : Nat) :: (xs ++ 38 :: t) = (x :: xs) ++ 38 :: t from rfl]
  simp only [cut_append h38]
  rw [if_neg h59, if_neg hne, hchunk]

/-- Parsing the joined encoded chunks of a pair list recovers the pairs. -/
theorem parseAux_joinAmp (ks : List (GoStr × GoStr)) :
    ∀ fuel : Nat, (joinAmp (ks.map encChunk)).length ≤ fuel →
    (∀ p ∈ ks, bytesOkPair p) →
    parseQueryAux fuel (joinAmp (ks.map encChunk)) = ks := by
  induction ks with
  | nil =>
    intro fuel _ _
    exact parseQueryAux_nil fuel
  | cons p ks' ih =>
    intro fuel hfuel hok
    have hp : bytesOkPair p := hok p (List.mem_cons_self _ _)
    have h38 : (38 : Nat) ∉ encChunk p := fun hm => (encChunk_no_sep hm).1 rfl
    have h59 : (59 : Nat) ∉ encChunk p := fun hm => (encChunk_no_sep hm).2 rfl
    have hne := encChunk_ne_nil p
    have hlen : 1 ≤ (encChunk p).length := List.length_pos.mpr hne
    have hchunk := parseChunk_encChunk hp
    cases ks' with
    | nil =>
      have hj : joinAmp (List.map encChunk [p]) = encChunk p := rfl
      rw [hj] at hfuel ⊢
      cases fuel with
      | zero => omega
      | succ fuel' => exact parseQueryAux_single h38 h59 hne hchunk fuel'
    | cons q ks'' =>
      have hj : joinAmp (List.map encChunk (p :: q :: ks'')) =
          encChunk p ++ 38 :: joinAmp (List.map encChunk (q :: ks'')) := rfl
      rw [hj] at hfuel ⊢
      rw [List.length_append, List.length_cons] at hfuel
      cases fuel with
      | zero => omega
      | succ fuel' =>
        rw [parseQueryAux_chunk h38 h59 hne hchunk]
        rw [ih fuel' (by omega) (fun r hr => hok r (List.mem_cons_of_mem _ hr))]

/-- Round trip: parsing the encoding of a map is a permutation of the map
(namely the key-sorted order that `Values.Encode` emits). -/
theorem parseQuery_valuesEncode {l : List (GoStr × GoStr)}
    (hok : ∀ p ∈ l, bytesOkPair p) :
    (parseQueryBytes (valuesEncode l)).Perm l := by
  unfold parseQueryBytes valuesEncode
  rw [parseAux_joinAmp (sortByKey l) _ (Nat.le_refl _)
    (fun p hp => hok p ((List.perm_insertionSort _ l).mem_iff.mp hp))]
  exact List.perm_insertionSort _ l

/-! ## URLs (url.URL and URL.String)

`getUrl` (src lines 59–74) only ever sets `Scheme`, `Host`, `Path` and
`RawQuery`, so `Opaque`, `User`, `RawPath`, `OmitHost`, `ForceQuery` (kept
as a field, always `false` here) and `Fragment` are absent/zero and the
corresponding branches of `URL.String` are specialised to their zero
values. -/

structure GoURL where
  scheme : GoStr
  host : GoStr
  path : GoStr
  rawQuery : GoStr
  forceQuery : Bool
deriving DecidableEq

/-- Model of `URL.EscapedPath`: `RawPath` is never set by this program, so the
valid-encoding branch is dead; `"*"` passes through, everything else is
path-escaped. -/
def escapedPath (u : GoURL) : GoStr :=
  if u.path = [42] then [42] else pathEscape u.path

/-- Whether the first path segment contains a `:` (the RFC 3986 §4.2
`./` guard inside `URL.String`). -/
def colonBeforeSlash (p : GoStr) : Bool := decide (58 ∈ (cut 47 p).1)

/-- Model of `URL.String()` up to (excluding) the query suffix. -/
def urlStringBase (u : GoURL) : GoStr :=
  let p := escapedPath u
  let pre :=
    (if u.scheme ≠ [] then u.scheme ++ [58] else [])
    ++ (if (u.scheme ≠ [] ∨ u.host ≠ []) ∧ (u.host ≠ [] ∨ u.path ≠ []) then [47, 47] else [])
    ++ (if u.scheme ≠ [] ∨ u.host ≠ [] then hostEscape u.host else [])
    ++ (if p ≠ [] ∧ p.head? ≠ some 47 ∧ u.host ≠ [] then [47] else [])
  (pre ++ (if pre = [] ∧ colonBeforeSlash p then [46, 47] else [])) ++ p

/-- Model of `url.URL.String()` for the URLs this program builds (no user info,
opaque part or fragment). -/
def urlString (u : GoURL) : GoStr :=
  urlStringBase u ++ (if u.forceQuery ∨ u.rawQuery ≠ [] then 63 :: u.rawQuery else [])

/-! ## MIME headers (textproto.CanonicalMIMEHeaderKey, http.Header)

`http.Header` is a Go map from canonical key to value list; modelled as an
association list (`Set` on an absent key appends; map order is
irrelevant to `Get`). -/

/-- Model of `httpguts.IsTokenRune` / the token table shared by `validMethod` and
`validHeaderFieldByte`: alphanumerics and `! # $ % & ' * + - . ^ _ \x60 | ~`. -/
def tokenChar (c : Nat) : Bool :=
  isAlphaNum c || c == 33 || c == 35 || c == 36 || c == 37 || c == 38 ||
    c == 39 || c == 42 || c == 43 || c == 45 || c == 46 || c == 94 ||
    c == 95 || c == 96 || c == 124 || c == 126

/-- The case-mapping loop of `textproto.canonicalMIMEHeaderKey`: upper-case
after a hyphen or at the start, lower-case otherwise. -/
def canonLoop : Bool → GoStr → GoStr
  | _, [] => []
  | upper, c :: rest =>
    (if upper ∧ 97 ≤ c ∧ c ≤ 122 then
      (c - 32) :: canonLoop false rest
    else if ¬ upper ∧ 65 ≤ c ∧ c ≤ 90 then
      (c + 32) :: canonLoop false rest
    else
      c :: canonLoop (c = 45) rest)

/-- Model of `textproto.CanonicalMIMEHeaderKey`: keys containing a non-token byte
pass through unchanged, otherwise the canonical case-mapping applies. -/
def canonicalMIMEHeaderKey (k : GoStr) : GoStr :=
  if k.all tokenChar then canonLoop true k else k

abbrev HeaderT := List (GoStr × List GoStr)

/-- Model of `textproto.MIMEHeader.Set` on the underlying map: replace the entry for
the canonical key with the one-element value list. -/
def assocSet (h : HeaderT) (k : GoStr) (v : List GoStr) : HeaderT :=
  match h with
  | [] => [(k, v)]
  | (k', v') :: rest => if k' = k then (k, v) :: rest else (k', v') :: assocSet rest k v

def assocGet : HeaderT → GoStr → Option (List GoStr)
  | [], _ => none
  | (k', v') :: rest, k => if k' = k then some v' else assocGet rest k

/-- Model of `http.Header.Set(key, value)`. -/
def headerSet (h : HeaderT) (k v : GoStr) : HeaderT :=
  assocSet h (canonicalMIMEHeaderKey k) [v]

/-- Observe a header entry by canonical key (textproto `Values`). -/
def headerGet (h : HeaderT) (k : GoStr) : Option (List GoStr) :=
  assocGet h (canonicalMIMEHeaderKey k)

/-! ## http.Request and the service proxy -/

/-- The fields of `http.Request` this program reads or writes.  `body` is
`req.Body` (`none` = nil, i.e. no payload is transmitted); `form` is
`req.Form` (`none` = nil = not yet parsed).  `req.Form` is a server-side
field: the transmitted payload of an outbound request is `body` alone. -/
structure HttpRequest where
  method : GoStr
  url : GoURL
  header : HeaderT
  body : Option GoStr
  contentLength : Int
  form : Option (List (GoStr × GoStr))
deriving DecidableEq

/-- Model of `ServiceApi` (src lines 15–18). -/
structure ServiceApi where
  method : GoStr
  path : GoStr
deriving DecidableEq

/-- Model of `HTTPServiceProxy` (src lines 20–24): `url` holds only Scheme and Host
(set at construction, lines 50–53); `apis` is the registry map. -/
structure HTTPServiceProxy where
  scheme : GoStr
  host : GoStr
  preprocessor : Option (HttpRequest → HttpRequest)
  apis : List (GoStr × ServiceApi)

/-- The runtime shapes `processBody` distinguishes for the `interface{}`
body: `string`, `[]byte`, `map[string]string`, a struct value (of type
`σ`), or any other shape. -/
inductive GoBody (σ : Type) where
  | str : GoStr → GoBody σ
  | bytes : GoStr → GoBody σ
  | strMap : List (GoStr × GoStr) → GoBody σ
  | structVal : σ → GoBody σ
  | other : GoBody σ

/-- Model of `RequestOptions` (src lines 33–38); `body` is the `interface{}` field
(`none` = nil), with `σ` the type of Go struct values. -/
structure RequestOptions (σ : Type) where
  apiKey : GoStr
  query : Option (List (GoStr × GoStr))
  body : Option (GoBody σ)
  headers : Option (List (GoStr × GoStr))

/-- Go map lookup on an association list (first match; keys distinct). -/
def mapLookup {α : Type} : List (GoStr × α) → GoStr → Option α
  | [], _ => none
  | (k, v) :: rest, key => if k = key then some v else mapLookup rest key

/-- Model of `getUrl` (src lines 59–74): fixed scheme and host from the proxy, the
path verbatim, and — when a query map is given — `RawQuery` set to the
encoding of the `Values` built by `q.Set` over the map (for a Go map,
which has distinct keys, those `Values` are exactly the map). -/
def getUrl (p : HTTPServiceProxy) (path : GoStr)
    (query : Option (List (GoStr × GoStr))) : GoURL :=
  { scheme := p.scheme, host := p.host, path := path,
    rawQuery := match query with
      | none => []
      | some q => valuesEncode q,
    forceQuery := false }

/-- Model of `getUrlStr` (src lines 76–78). -/
def getUrlStr (p : HTTPServiceProxy) (path : GoStr)
    (query : Option (List (GoStr × GoStr))) : GoStr :=
  urlString (getUrl p path query)

/-- Model of `getApi` (src lines 113–122) as a value lookup: the nil-map branch
collapses (the constructor always allocates a map), and the entry is
returned by value (`api := p.apis[key]; return &api` returns a pointer to
a fresh copy — the aliasing aspect is modelled separately by the heap
model below). -/
def getApi (p : HTTPServiceProxy) (key : GoStr) : Option ServiceApi :=
  mapLookup p.apis key

/-- Model of `http.NewRequest(method, urlStr, nil)`: an empty method defaults to
GET; a method with a non-token byte is rejected.  The source always passes
the string of a URL built by `getUrl`; `url.Parse` of that string recovers
the same scheme, host, path and raw query, so the embedding passes the
structured URL through.  A nil body gives `req.Body = nil` and
`ContentLength 0`; `NewRequest` allocates an empty header map. -/
def newRequest (method : GoStr) (u : GoURL) : Except GoStr HttpRequest :=
  (if method = [] then strBytes "GET" else method) |> fun m =>
  if m.all tokenChar then
    .ok { method := m, url := u, header := [], body := none,
          contentLength := 0, form := none }
  else
    .error (strBytes "net/http: invalid method " ++ [34] ++ m ++ [34])

/-- Model of `http.Request.ParseForm` for the requests this program builds (body
nil, `PostForm`/`Form` nil at the call): for POST/PUT/PATCH the nil body
yields the "missing form body" error; in all cases `Form` is populated
from the URL's raw query (the query of this program is produced by
`Values.Encode`, so its parse error is nil). -/
def parseForm (req : HttpRequest) : HttpRequest × Option GoStr :=
  ((if req.form = none then
      { req with form := some (parseQueryBytes req.url.rawQuery) }
    else req),
   if (req.method = strBytes "POST" ∨ req.method = strBytes "PUT" ∨
       req.method = strBytes "PATCH") ∧ req.body = none then
     some (strBytes "missing form body")
   else none)

/-- Model of `processBody` (src lines 171–215).  `jsonMarshal` is the
`encoding/json.Marshal` collaborator for struct values of type `σ`.
Mirrors the source exactly, including:
* the `map[string]string` case calls `ParseForm` and on error returns
  `nil` (success) — the error is discarded and neither the form pairs nor
  the content type are applied (the `Form` mutation done inside
  `ParseForm` persists, as the request was mutated in place);
* on the non-error path the pairs are added to `req.Form` (a server-side
  field — `req.Body` is left nil) and the content type is set;
* the struct case marshals, propagating the error, and sets body bytes,
  content length and content type;
* any other shape is the "Illegal the body type" error. -/
def processBody {σ : Type} (jsonMarshal : σ → Except GoStr GoStr)
    (req : HttpRequest) (body : GoBody σ) : Except GoStr HttpRequest :=
  match body with
  | .str s => .ok { req with body := some s, contentLength := (s.length : Int) }
  | .bytes b => .ok { req with body := some b, contentLength := (b.length : Int) }
  | .strMap m =>
    match parseForm req with
    | (req1, some _) => .ok req1
    | (req1, none) =>
      .ok { req1 with
              form := some ((req1.form.getD []) ++ m),
              header := headerSet req1.header (strBytes "Content-Type")
                (strBytes "application/x-www-form-urlencoded") }
  | .structVal s =>
    match jsonMarshal s with
    | .error e => .error e
    | .ok b =>
      .ok { req with
              body := some b,
              contentLength := (b.length : Int),
              header := headerSet req.header (strBytes "Content-Type")
                (strBytes "application/json") }
  | .other =>
    .error (strBytes
      "Illegal the body type: only string, []byte, map[string]string, struct supported")

deriving instance DecidableEq for Except

/-- The response the HTTP client transport hands back: status code and the
outcome of `ioutil.ReadAll` on its body stream. -/
structure HttpResponse where
  statusCode : Nat
  bodyRead : Except GoStr GoStr
deriving DecidableEq

/-- Observable outcome of one call.  `result`/`err` are the Go return
values; `sent` is the request handed to `client.Do` (`none` when nothing
was transmitted); `gotResponse` records that the transport produced a
response; `bodyClosed` records whether `res.Body.Close()` ran before the
function returned. -/
structure CallResult where
  result : Option GoStr
  err : Option GoStr
  sent : Option HttpRequest
  bodyClosed : Bool
  gotResponse : Bool
deriving DecidableEq

/-- Apply the optional preprocessor (src lines 86–88); the Go hook mutates
`*http.Request` in place, modelled as a request transformer. -/
def applyPre (pre : Option (HttpRequest → HttpRequest)) (req : HttpRequest) :
    HttpRequest :=
  match pre with
  | some f => f req
  | none => req

def natToDecAux : Nat → Nat → GoStr
  | 0, _ => []
  | fuel + 1, n => if n < 10 then [48 + n] else natToDecAux fuel (n / 10) ++ [48 + n % 10]

/-- Decimal digits of a natural number (`fmt.Sprintf("%d", n)`). -/
def natToDec (n : Nat) : GoStr := natToDecAux (n + 1) n

/-- Model of `RawRequest` lines 96–110, given the response `client.Do` produced for
the (preprocessed) request `req'`: fail on a status code whose hundreds
digit is not 2, read the body, fail on a read error, and otherwise return
the bytes.  `defer res.Body.Close()` (lines 106–108) is registered only
after a successful `ReadAll`, so `bodyClosed` is true exactly on the
success path. -/
def rawRequestResponse (req' : HttpRequest) (res : HttpResponse) : CallResult :=
  if res.statusCode / 100 ≠ 2 then
    { result := none,
      err := some (strBytes "Invalid status code of response: " ++
        natToDec res.statusCode),
      sent := some req', bodyClosed := false, gotResponse := true }
  else match res.bodyRead with
    | .error e =>
      { result := none,
        err := some (strBytes "Failed to read response body from " ++
          urlString req'.url ++ strBytes ": " ++ e),
        sent := some req', bodyClosed := false, gotResponse := true }
    | .ok b =>
      { result := some b, err := none, sent := some req',
        bodyClosed := true, gotResponse := true }

/-- Model of `RawRequest` (src lines 80–111): apply the preprocessor (the hook
mutates the request in place, so every later use of `req` sees the
preprocessed request), run `client.Do` (the `transport` collaborator),
fail on a transport error, and otherwise validate and read the response
(`rawRequestResponse`). -/
def rawRequest (pre : Option (HttpRequest → HttpRequest)) (req : HttpRequest)
    (transport : HttpRequest → Except GoStr HttpResponse) : CallResult :=
  match transport (applyPre pre req) with
  | .error e =>
    { result := none,
      err := some (strBytes "Failed to request (" ++
        urlString (applyPre pre req).url ++ strBytes "): " ++ e),
      sent := some (applyPre pre req), bodyClosed := false, gotResponse := false }
  | .ok res => rawRequestResponse (applyPre pre req) res

/-- Lines 144–150 of `Request`: `header := make(http.Header)`, a `Set` for
every entry of `opts.Headers` (none when the map is nil), then
`req.Header = header`, replacing the request's header map. -/
def withHeaders (req : HttpRequest) (hs : Option (List (GoStr × GoStr))) :
    HttpRequest :=
  { req with header := (hs.getD []).foldl (fun h kv => headerSet h kv.1 kv.2) [] }

/-- The request-assembly prefix of `Request` (src lines 130–157): registry
lookup, `http.NewRequest` with the built URL, fresh header map populated
from `opts.Headers`, then `processBody` when a body is present. -/
def assemble {σ : Type} (jsonMarshal : σ → Except GoStr GoStr)
    (p : HTTPServiceProxy) (opts : RequestOptions σ) : Except GoStr HttpRequest :=
  match getApi p opts.apiKey with
  | none => .error (strBytes "Invalid API key: " ++ opts.apiKey)
  | some api =>
    match newRequest api.method (getUrl p api.path opts.query) with
    | .error e => .error e
    | .ok req0 =>
      match opts.body with
      | none => .ok (withHeaders req0 opts.headers)
      | some b => processBody jsonMarshal (withHeaders req0 opts.headers) b

/-- Model of `Request` (src lines 124–160): assemble, returning `(nil, err)` on any
assembly error, then hand the request to `RawRequest`. -/
def requestFn {σ : Type} (jsonMarshal : σ → Except GoStr GoStr)
    (p : HTTPServiceProxy) (opts : RequestOptions σ)
    (transport : HttpRequest → Except GoStr HttpResponse) : CallResult :=
  match assemble jsonMarshal p opts with
  | .error e =>
    { result := none, err := some e, sent := none,
      bodyClosed := false, gotResponse := false }
  | .ok req => rawRequest p.preprocessor req transport

/-- Model of `JSON` (src lines 162–169): run `Request`; on error return it (the
target untouched); otherwise `json.Unmarshal(data, result)` — the
`jsonUnmarshal` collaborator takes the bytes and the current target value
and returns the (possibly updated) target and an error. -/
def jsonFn {σ τ : Type} (jsonMarshal : σ → Except GoStr GoStr)
    (jsonUnmarshal : GoStr → τ → τ × Option GoStr)
    (p : HTTPServiceProxy) (opts : RequestOptions σ)
    (transport : HttpRequest → Except GoStr HttpResponse) (target : τ) :
    τ × Option GoStr :=
  match (requestFn jsonMarshal p opts transport).err with
  | some e => (target, some e)
  | none =>
    jsonUnmarshal ((requestFn jsonMarshal p opts transport).result.getD []) target

/-! ## Heap model for copy-versus-alias behaviour (construction and lookup)

The pure embedding above cannot distinguish a copied map from an aliased
one, so the two copying operations — the constructor's registry copy
(src lines 40–57) and `getApi`'s entry copy (src lines 113–122) — are
additionally modelled against an explicit object heap.  A cell is a Go
heap object: either a `map[string]ServiceApi` or a `ServiceApi` variable
whose address is taken. -/

inductive Cell where
  | regCell : List (GoStr × ServiceApi) → Cell
  | apiCell : ServiceApi → Cell
deriving DecidableEq

abbrev Heap := List Cell

def heapRead (h : Heap) (r : Nat) : Option Cell := h[r]?

def heapWrite (h : Heap) (r : Nat) (c : Cell) : Heap := h.set r c

/-- A reference-level `HTTPServiceProxy`: the registry field holds the
address of its map object. -/
structure ProxyRef where
  scheme : GoStr
  host : GoStr
  apisRef : Nat
deriving DecidableEq

/-- The copy loop of `NewHTTPServiceProxy` (src lines 41–47): the contents
of the fresh map — every entry of the caller's map, or nothing when the
argument is nil. -/
def copyRegistry (h : Heap) : Option Nat → List (GoStr × ServiceApi)
  | none => []
  | some r =>
    match heapRead h r with
    | some (.regCell m) => m
    | _ => []

/-- Model of `NewHTTPServiceProxy` (src lines 40–57) at the heap level:
`apis := make(map[string]ServiceApi)` allocates a fresh map, the loop
copies every entry of the caller's map into it, and the proxy stores the
fresh map's address, never the caller's. -/
def newHTTPServiceProxyH (h : Heap) (scheme host : GoStr)
    (apisArg : Option Nat) : Heap × ProxyRef :=
  (h ++ [Cell.regCell (copyRegistry h apisArg)],
   { scheme := scheme, host := host, apisRef := h.length })

theorem copyRegistry_some {h : Heap} {r : Nat} {m : List (GoStr × ServiceApi)}
    (hr : heapRead h r = some (.regCell m)) : copyRegistry h (some r) = m := by
  have hstep : copyRegistry h (some r) =
      (match heapRead h r with
      | some (.regCell m) => m
      | _ => []) := rfl
  rw [hstep, hr]

/-- The hit path of `getApi` (src lines 115–117): `api := p.apis[key]`
copies the entry into a fresh variable; `&api` is that variable's
address — never a pointer into the registry. -/
def getApiHit (h : Heap) (m : List (GoStr × ServiceApi)) (key : GoStr) :
    Heap × Option Nat :=
  match mapLookup m key with
  | some api => (h ++ [Cell.apiCell api], some h.length)
  | none => (h, none)

/-- Model of `getApi` (src lines 113–122) at the heap level. -/
def getApiH (h : Heap) (p : ProxyRef) (key : GoStr) : Heap × Option Nat :=
  match heapRead h p.apisRef with
  | some (.regCell m) => getApiHit h m key
  | _ => (h, none)

theorem getApiH_eq {h : Heap} {p : ProxyRef} {m : List (GoStr × ServiceApi)}
    (hread : heapRead h p.apisRef = some (.regCell m)) (key : GoStr) :
    getApiH h p key = getApiHit h m key := by
  unfold getApiH
  rw [hread]

theorem getApiHit_none {h : Heap} {m : List (GoStr × ServiceApi)} {key : GoStr}
    (hlk : mapLookup m key = none) : getApiHit h m key = (h, none) := by
  unfold getApiHit
  rw [hlk]

theorem getApiHit_some {h : Heap} {m : List (GoStr × ServiceApi)} {key : GoStr}
    {api : ServiceApi} (hlk : mapLookup m key = some api) :
    getApiHit h m key = (h ++ [Cell.apiCell api], some h.length) := by
  unfold getApiHit
  rw [hlk]

/-! ## The encoding/json collaborator for `JSON` (claim 9)

Modelled from the spec: §4.7 and §6 delegate response decoding to the
standard JSON deserializer (`encoding/json`), which is not part of
`src/`.  The model follows Go's documented `json.Unmarshal` behaviour for
a flat struct with two `int` fields: the input is syntax-checked first
(`checkValid` — a syntax error reports without touching the target), and
during decoding a value of the wrong type for a field is skipped, the
first such error is saved, and the remaining fields are still decoded
("Unmarshal ... completes the unmarshaling as best it can", returning an
`UnmarshalTypeError`). -/

inductive JLit where
  | jint : Int → JLit
  | jstr : GoStr → JLit
deriving DecidableEq

/-- Bytes of a JSON string after its opening quote (no escapes — none
occur in the inputs used): content and remainder after the closing quote. -/
def parseJString : GoStr → Option (GoStr × GoStr)
  | [] => none
  | 34 :: rest => some ([], rest)
  | c :: rest => (parseJString rest).map fun p => (c :: p.1, p.2)
  termination_by structural s => s

/-- Split a leading run of decimal digits. -/
def splitDigits : GoStr → GoStr × GoStr
  | [] => ([], [])
  | c :: rest =>
    if 48 ≤ c ∧ c ≤ 57 then (c :: (splitDigits rest).1, (splitDigits rest).2)
    else ([], c :: rest)

def digitsVal (ds : GoStr) : Nat := ds.foldl (fun acc c => acc * 10 + (c - 48)) 0

/-- A flat JSON value: a quoted string or a non-negative integer literal. -/
def parseJValue : GoStr → Option (JLit × GoStr)
  | 34 :: rest => (parseJString rest).map fun p => (.jstr p.1, p.2)
  | s =>
    if (splitDigits s).1 = [] then none
    else some (.jint (digitsVal (splitDigits s).1), (splitDigits s).2)

/-- Comma-separated `"key":value` fields up to the closing brace. -/
def parseJFields : Nat → GoStr → Option (List (GoStr × JLit) × GoStr)
  | 0, _ => none
  | fuel + 1, 34 :: rest =>
    match parseJString rest with
    | none => none
    | some (key, rest1) =>
      match rest1 with
      | 58 :: rest2 =>
        match parseJValue rest2 with
        | none => none
        | some (v, rest3) =>
          match rest3 with
          | 44 :: rest4 => (parseJFields fuel rest4).map fun p => ((key, v) :: p.1, p.2)
          | 125 :: rest4 => some ([(key, v)], rest4)
          | _ => none
      | _ => none
  | _ + 1, _ => none
  termination_by structural fuel _ => fuel

/-- A flat JSON object `\x7b"k":v,...\x7d`; `none` is a syntax error. -/
def parseJsonFlat (s : GoStr) : Option (List (GoStr × JLit)) :=
  match s with
  | 123 :: 125 :: [] => some []
  | 123 :: rest =>
    match parseJFields rest.length rest with
    | some (fields, []) => some fields
    | _ => none
  | _ => none

/-- The decode target `struct { A, B int }`. -/
structure TwoInts where
  a : Int
  b : Int
deriving DecidableEq

/-- Model of `json.Unmarshal(data, &target)` for `TwoInts` per the documented
behaviour quoted above: syntax errors leave the target untouched; a
string where an int is expected saves the first `UnmarshalTypeError` and
decoding continues with the remaining fields; unknown keys are ignored. -/
def unmarshalTwoInts (data : GoStr) (t : TwoInts) : TwoInts × Option GoStr :=
  match parseJsonFlat data with
  | none => (t, some (strBytes "invalid character in JSON input"))
  | some fields =>
    fields.foldl (fun acc f =>
      if f.1 = [65] then
        match f.2 with
        | .jint n => ({ acc.1 with a := n }, acc.2)
        | .jstr _ => (acc.1, acc.2 <|> some (strBytes
            "json: cannot unmarshal string into Go struct field TwoInts.A of type int"))
      else if f.1 = [66] then
        match f.2 with
        | .jint n => ({ acc.1 with b := n }, acc.2)
        | .jstr _ => (acc.1, acc.2 <|> some (strBytes
            "json: cannot unmarshal string into Go struct field TwoInts.B of type int"))
      else acc) (t, none)

/-! ## Helper lemmas about the executor -/

theorem rawRequest_do_ok {pre : Option (HttpRequest → HttpRequest)}
    {req : HttpRequest} {transport : HttpRequest → Except GoStr HttpResponse}
    {res : HttpResponse} (hdo : transport (applyPre pre req) = .ok res) :
    rawRequest pre req transport = rawRequestResponse (applyPre pre req) res := by
  unfold rawRequest
  rw [hdo]

theorem rawRequestResponse_sent (req' : HttpRequest) (res : HttpResponse) :
    (rawRequestResponse req' res).sent = some req' := by
  unfold rawRequestResponse
  by_cases hs : res.statusCode / 100 ≠ 2
  · rw [if_pos hs]
  · rw [if_neg hs]
    cases res.bodyRead <;> rfl

theorem rawRequest_sent (pre : Option (HttpRequest → HttpRequest))
    (req : HttpRequest) (transport : HttpRequest → Except GoStr HttpResponse) :
    (rawRequest pre req transport).sent = some (applyPre pre req) := by
  unfold rawRequest
  cases h : transport (applyPre pre req) with
  | error e => rfl
  | ok res => exact rawRequestResponse_sent _ _

/-- The assembly prefix never reads the preprocessor field. -/
theorem assemble_pre_irrel {σ : Type} (jm : σ → Except GoStr GoStr)
    (p : HTTPServiceProxy) (f : Option (HttpRequest → HttpRequest))
    (opts : RequestOptions σ) :
    assemble jm { p with preprocessor := f } opts = assemble jm p opts := rfl

/-! ## Concrete fixtures used by the claim theorems -/

/-- A trivial `json.Marshal` collaborator for struct type `Unit` (never
invoked by the fixtures that use it). -/
def mU : Unit → Except GoStr GoStr := fun _ => .ok []

/-- Bytes of the literal path `/users/` followed by `id` in braces. -/
def pathUsersW : GoStr := strBytes "/users/" ++ [123] ++ strBytes "id" ++ [125]

def pW : HTTPServiceProxy :=
  { scheme := strBytes "https", host := strBytes "api.test", preprocessor := none,
    apis := [(strBytes "getUser", { method := strBytes "GET", path := pathUsersW }),
             (strBytes "simple", { method := strBytes "GET", path := strBytes "/x" })] }

def reqGetW : HttpRequest :=
  { method := strBytes "GET", url := getUrl pW (strBytes "/x") none, header := [],
    body := none, contentLength := 0, form := none }

def reqPostW : HttpRequest := { reqGetW with method := strBytes "POST" }

def respond200W : HttpRequest → Except GoStr HttpResponse :=
  fun _ => .ok { statusCode := 200, bodyRead := .ok (strBytes "yes") }

def respond404W : HttpRequest → Except GoStr HttpResponse :=
  fun _ => .ok { statusCode := 404, bodyRead := .ok (strBytes "nope") }

def respondReadErrW : HttpRequest → Except GoStr HttpResponse :=
  fun _ => .ok { statusCode := 200, bodyRead := .error (strBytes "boom") }

def optsSimpleW : RequestOptions Unit :=
  { apiKey := strBytes "simple", query := none, body := none, headers := none }

def optsBadKeyW : RequestOptions Unit :=
  { apiKey := strBytes "nope", query := none, body := none, headers := none }

/-! ## The claims -/

/-- The request `processBody` produces from `reqGetW` and the map body
`\x7b"name": "alice"\x7d`. -/
def reqFormW : HttpRequest :=
  { reqGetW with
    form := some [(strBytes "name", strBytes "alice")],
    header := [(strBytes "Content-Type", [strBytes "application/x-www-form-urlencoded"])] }

/-- C1 (code bug, form row of the §4.4 table): for a `map[string]string`
body on a GET request, `processBody` sets the form content type but adds
the pairs only to `req.Form` — a field that is not transmitted — leaving
`req.Body` nil, so the request payload is empty rather than the
form-encoded `name=alice`.  (The string/byte/struct/other rows behave as
claimed; the map row contradicts the claimed payload.) -/
theorem claim1_form_body_not_sent :
    processBody mU reqGetW (.strMap [(strBytes "name", strBytes "alice")]) = .ok reqFormW
    ∧ reqFormW.body = none
    ∧ reqFormW.body ≠ some (strBytes "name=alice")
    ∧ headerGet reqFormW.header (strBytes "Content-Type") =
        some [strBytes "application/x-www-form-urlencoded"] := by decide

/-- C2: a response with status 200–299 (and a readable body) returns the
body bytes unaltered with no error; a status outside that range returns
the "Invalid status code" error naming the code and no bytes. -/
theorem claim2_status_check (pre : Option (HttpRequest → HttpRequest))
    (req : HttpRequest) (transport : HttpRequest → Except GoStr HttpResponse)
    (res : HttpResponse) (hdo : transport (applyPre pre req) = .ok res) :
    ((200 ≤ res.statusCode ∧ res.statusCode ≤ 299) →
      ∀ b, res.bodyRead = .ok b →
        rawRequest pre req transport =
          { result := some b, err := none, sent := some (applyPre pre req),
            bodyClosed := true, gotResponse := true })
    ∧ ((res.statusCode < 200 ∨ 300 ≤ res.statusCode) →
        rawRequest pre req transport =
          { result := none,
            err := some (strBytes "Invalid status code of response: " ++
              natToDec res.statusCode),
            sent := some (applyPre pre req), bodyClosed := false,
            gotResponse := true }) := by
  constructor
  · intro hin b hb
    rw [rawRequest_do_ok hdo]
    unfold rawRequestResponse
    rw [if_neg (by omega : ¬ res.statusCode / 100 ≠ 2), hb]
  · intro hout
    rw [rawRequest_do_ok hdo]
    unfold rawRequestResponse
    rw [if_pos (by omega : res.statusCode / 100 ≠ 2)]

theorem claim2_witness :
    rawRequest none reqGetW respond200W =
      { result := some (strBytes "yes"), err := none, sent := some reqGetW,
        bodyClosed := true, gotResponse := true } :=
  (claim2_status_check none reqGetW respond200W
    { statusCode := 200, bodyRead := .ok (strBytes "yes") } rfl).1
    (by decide) (strBytes "yes") rfl

/-- C3: an API key absent from the registry fails with the
"Invalid API key" error; nothing is transmitted (`sent = none`) and the
outcome does not depend on the transport at all. -/
theorem claim3_invalid_api_key {σ : Type} (jm : σ → Except GoStr GoStr)
    (p : HTTPServiceProxy) (opts : RequestOptions σ)
    (transport : HttpRequest → Except GoStr HttpResponse)
    (h : mapLookup p.apis opts.apiKey = none) :
    requestFn jm p opts transport =
      { result := none, err := some (strBytes "Invalid API key: " ++ opts.apiKey),
        sent := none, bodyClosed := false, gotResponse := false } := by
  unfold requestFn assemble getApi
  rw [h]

theorem claim3_witness :
    requestFn mU pW optsBadKeyW respond200W =
      { result := none,
        err := some (strBytes "Invalid API key: " ++ strBytes "nope"),
        sent := none, bodyClosed := false, gotResponse := false } :=
  claim3_invalid_api_key mU pW optsBadKeyW respond200W (by decide)

/-- C4 (counterexample): at the claimed scenario the builder does not
produce `https://api.test/users/` + braces + `id` + braces + `?id=42`
byte-for-byte — `URL.String()` percent-escapes the braces, yielding
`%7Bid%7D` in their place. -/
theorem claim4_counterexample :
    getUrlStr pW pathUsersW (some [(strBytes "id", strBytes "42")]) ≠
      strBytes "https://api.test/users/" ++ [123, 105, 100, 125] ++ strBytes "?id=42"
    ∧ getUrlStr pW pathUsersW (some [(strBytes "id", strBytes "42")]) =
      strBytes "https://api.test/users/%7Bid%7D?id=42" := by decide

/-- C4 (amended): the URL builder performs no templating or substitution —
the path is stored verbatim in the URL's path component for every input —
but `URL.String()` percent-escapes bytes that are not URL-safe in a path,
so the scenario produces `https://api.test/users/%7Bid%7D?id=42` (the
braces percent-encoded, the `id` query appended, nothing substituted). -/
theorem claim4_path_verbatim_escaped :
    (∀ (p : HTTPServiceProxy) (path : GoStr) (q : Option (List (GoStr × GoStr))),
      (getUrl p path q).path = path)
    ∧ getUrlStr pW pathUsersW (some [(strBytes "id", strBytes "42")]) =
      strBytes "https://api.test/users/%7Bid%7D?id=42" :=
  ⟨fun _ _ _ => rfl, by decide⟩

/-- C5 (code bug): `defer res.Body.Close()` is registered only after a
successful `ReadAll`, so on the non-2xx exit and on the read-error exit
the response body is never closed before the call returns; only the
success path releases it. -/
theorem claim5_body_not_closed :
    (rawRequest none reqGetW respond404W).gotResponse = true
    ∧ (rawRequest none reqGetW respond404W).err =
        some (strBytes "Invalid status code of response: 404")
    ∧ (rawRequest none reqGetW respond404W).bodyClosed = false
    ∧ (rawRequest none reqGetW respondReadErrW).gotResponse = true
    ∧ (rawRequest none reqGetW respondReadErrW).bodyClosed = false
    ∧ (rawRequest none reqGetW respond200W).bodyClosed = true := by decide

/-- The request `processBody` produces from `reqPostW` and a map body:
`ParseForm` fails ("missing form body"), the error is discarded, and the
request goes on unchanged except for the `Form` field `ParseForm` set. -/
def reqPostFormW : HttpRequest := { reqPostW with form := some [] }

/-- C6 (code bug): on a POST request with a `map[string]string` body,
`ParseForm` inside `processBody` returns the "missing form body" error,
and `processBody` swallows it (`return nil`), reporting success with
neither the form pairs nor the content type applied — an error arising
during body encoding is silently discarded instead of aborting the call. -/
theorem claim6_parseform_error_swallowed :
    (parseForm reqPostW).2 = some (strBytes "missing form body")
    ∧ processBody mU reqPostW (.strMap [(strBytes "a", strBytes "b")]) = .ok reqPostFormW
    ∧ reqPostFormW.header = []
    ∧ reqPostFormW.body = none := by decide

/-- C7: the preprocessor hook runs exactly once per call, immediately
before transmission, on the fully assembled request (what the transport
receives is exactly the hook's mutation of the assembled request), and it
is never invoked when assembly failed — on any assembly error the outcome
is the same constant for every choice of preprocessor and nothing is
transmitted. -/
theorem claim7_preprocessor {σ : Type} (jm : σ → Except GoStr GoStr)
    (p : HTTPServiceProxy) (opts : RequestOptions σ)
    (transport : HttpRequest → Except GoStr HttpResponse) :
    (∀ e, assemble jm p opts = .error e →
      ∀ f, requestFn jm { p with preprocessor := f } opts transport =
        { result := none, err := some e, sent := none,
          bodyClosed := false, gotResponse := false })
    ∧ (∀ r, assemble jm p opts = .ok r →
        requestFn jm p opts transport = rawRequest p.preprocessor r transport
        ∧ (requestFn jm p opts transport).sent =
            some (applyPre p.preprocessor r)) := by
  constructor
  · intro e he f
    unfold requestFn
    rw [assemble_pre_irrel, he]
  · intro r hr
    have h1 : requestFn jm p opts transport = rawRequest p.preprocessor r transport := by
      unfold requestFn
      rw [hr]
    exact ⟨h1, by rw [h1]; exact rawRequest_sent _ _ _⟩

/-- A proxy whose preprocessor adds an auth header. -/
def pPreW : HTTPServiceProxy :=
  { pW with preprocessor := some (fun r =>
      { r with header := headerSet r.header (strBytes "X-Auth") (strBytes "tok") }) }

/-- The request `assemble` produces for `pPreW` and `optsSimpleW`. -/
def reqSimpleW : HttpRequest :=
  { method := strBytes "GET", url := getUrl pPreW (strBytes "/x") none,
    header := [], body := none, contentLength := 0, form := none }

theorem claim7_witness :
    requestFn mU pPreW optsSimpleW respond200W =
      rawRequest pPreW.preprocessor reqSimpleW respond200W
    ∧ (requestFn mU pPreW optsSimpleW respond200W).sent =
        some (applyPre pPreW.preprocessor reqSimpleW) :=
  (claim7_preprocessor mU pPreW optsSimpleW respond200W).2 reqSimpleW rfl

/-- C8: for a query map with distinct keys (byte strings), the built
URL's query string decodes back to exactly the same key/value pairs (a
permutation of the map, hence the same number of entries); a nil or empty
query map yields an empty `RawQuery`, and the URL string then carries no
query component at all. -/
theorem claim8_query_roundtrip (p : HTTPServiceProxy) (path : GoStr)
    (l : List (GoStr × GoStr)) (hok : ∀ q ∈ l, bytesOkPair q)
    (hnodup : (l.map Prod.fst).Nodup) :
    (parseQueryBytes ((getUrl p path (some l)).rawQuery)).Perm l
    ∧ (parseQueryBytes ((getUrl p path (some l)).rawQuery)).length = l.length
    ∧ (getUrl p path none).rawQuery = []
    ∧ (getUrl p path (some [])).rawQuery = []
    ∧ urlString (getUrl p path none) = urlStringBase (getUrl p path none)
    ∧ urlString (getUrl p path (some [])) = urlStringBase (getUrl p path (some [])) := by
  have hperm : (parseQueryBytes ((getUrl p path (some l)).rawQuery)).Perm l := by
    rw [show (getUrl p path (some l)).rawQuery = valuesEncode l from rfl]
    exact parseQuery_valuesEncode hok
  refine ⟨hperm, hperm.length_eq, rfl, rfl, ?_, ?_⟩
  · unfold urlString
    rw [if_neg ?hc]
    · exact List.append_nil _
    case hc =>
      rintro (hfq | hq)
      · exact Bool.false_ne_true hfq
      · exact hq rfl
  · unfold urlString
    rw [if_neg ?hc2]
    · exact List.append_nil _
    case hc2 =>
      rintro (hfq | hq)
      · exact Bool.false_ne_true hfq
      · exact hq rfl

theorem claim8_witness :
    (parseQueryBytes ((getUrl pW (strBytes "/x")
        (some [(strBytes "id", strBytes "42")])).rawQuery)).Perm
      [(strBytes "id", strBytes "42")]
    ∧ (parseQueryBytes ((getUrl pW (strBytes "/x")
        (some [(strBytes "id", strBytes "42")])).rawQuery)).length =
      ([(strBytes "id", strBytes "42")] : List (GoStr × GoStr)).length
    ∧ (getUrl pW (strBytes "/x") none).rawQuery = []
    ∧ (getUrl pW (strBytes "/x") (some [])).rawQuery = []
    ∧ urlString (getUrl pW (strBytes "/x") none) =
        urlStringBase (getUrl pW (strBytes "/x") none)
    ∧ urlString (getUrl pW (strBytes "/x") (some [])) =
        urlStringBase (getUrl pW (strBytes "/x") (some [])) :=
  claim8_query_roundtrip pW (strBytes "/x") [(strBytes "id", strBytes "42")]
    (by decide) (by decide)

def respondJsonW : HttpRequest → Except GoStr HttpResponse :=
  fun _ => .ok
    { statusCode := 200,
      bodyRead := .ok [123, 34, 65, 34, 58, 49, 44, 34, 66, 34, 58, 34, 120, 34, 125] }

/-- C9 (counterexample): with a 200 response whose body is the JSON
`\x7b"A":1,"B":"x"\x7d`, `JSON` into a two-int-field struct returns a
decode error AND a partially populated target (`A` was set to 1 before
the type mismatch on `B`), so an error is delivered alongside a modified
target. -/
theorem claim9_counterexample :
    (jsonFn mU unmarshalTwoInts pW optsSimpleW respondJsonW
        ({ a := 0, b := 0 } : TwoInts)).2.isSome = true
    ∧ (jsonFn mU unmarshalTwoInts pW optsSimpleW respondJsonW
        ({ a := 0, b := 0 } : TwoInts)).1 ≠ ({ a := 0, b := 0 } : TwoInts)
    ∧ (jsonFn mU unmarshalTwoInts pW optsSimpleW respondJsonW
        ({ a := 0, b := 0 } : TwoInts)).1 = ({ a := 1, b := 0 } : TwoInts) := by
  decide

/-- C9 (amended): when the underlying `Request` fails, `JSON` returns that
error and the caller's target is left unmodified; when `Request` succeeds
but decoding fails, the error is returned but the decoder may already
have partially populated the target (Go's `json.Unmarshal` completes the
unmarshalling as best it can on a type mismatch). -/
theorem claim9_request_error_target_unchanged {σ τ : Type}
    (jm : σ → Except GoStr GoStr) (ju : GoStr → τ → τ × Option GoStr)
    (p : HTTPServiceProxy) (opts : RequestOptions σ)
    (transport : HttpRequest → Except GoStr HttpResponse) (t : τ) (e : GoStr)
    (h : (requestFn jm p opts transport).err = some e) :
    jsonFn jm ju p opts transport t = (t, some e) := by
  unfold jsonFn
  rw [h]

theorem claim9_witness :
    jsonFn mU unmarshalTwoInts pW optsBadKeyW respondJsonW
      ({ a := 0, b := 0 } : TwoInts) =
      (({ a := 0, b := 0 } : TwoInts),
        some (strBytes "Invalid API key: " ++ strBytes "nope")) :=
  claim9_request_error_target_unchanged mU unmarshalTwoInts pW optsBadKeyW
    respondJsonW { a := 0, b := 0 }
    (strBytes "Invalid API key: " ++ strBytes "nope") (by decide)

/-- C10: the constructor copies the caller's API map into a freshly
allocated map, so the proxy's registry still holds the original entries
after any later write through the caller's reference; `getApi` returns
the address of a fresh copy of the entry (never a pointer into the
registry), so writing through it leaves the registry unchanged too, and
the lookup itself does not disturb the registry cell. -/
theorem claim10_registry_copied (h : Heap) (r : Nat)
    (m : List (GoStr × ServiceApi)) (scheme host : GoStr)
    (hr : heapRead h r = some (.regCell m)) :
    ∀ h1 p, newHTTPServiceProxyH h scheme host (some r) = (h1, p) →
      heapRead h1 p.apisRef = some (.regCell m)
      ∧ (∀ m', heapRead (heapWrite h1 r (.regCell m')) p.apisRef =
          some (.regCell m))
      ∧ (∀ key h2 apiRef, getApiH h1 p key = (h2, some apiRef) →
          heapRead h2 p.apisRef = some (.regCell m)
          ∧ apiRef ≠ p.apisRef
          ∧ ∀ api', heapRead (heapWrite h2 apiRef (.apiCell api')) p.apisRef =
              some (.regCell m)) := by
  intro h1 p hnew
  have hrlt : r < h.length := by
    by_contra hge
    unfold heapRead at hr
    rw [List.getElem?_eq_none (by omega)] at hr
    exact Option.noConfusion hr
  unfold newHTTPServiceProxyH at hnew
  rw [copyRegistry_some hr] at hnew
  obtain ⟨hh1, hp⟩ := Prod.mk.injEq .. ▸ hnew
  subst hh1
  have hpref : p.apisRef = h.length := by rw [← hp]
  have hread1 : heapRead (h ++ [Cell.regCell m]) p.apisRef = some (.regCell m) := by
    unfold heapRead
    rw [hpref]
    exact List.getElem?_concat_length h _
  refine ⟨hread1, ?_, ?_⟩
  · intro m'
    unfold heapWrite heapRead
    rw [List.getElem?_set_ne (by omega)]
    exact hread1
  · intro key h2 apiRef hget
    rw [getApiH_eq hread1] at hget
    cases hlk : mapLookup m key with
    | none =>
      rw [getApiHit_none hlk] at hget
      exact absurd (Prod.mk.injEq .. ▸ hget).2 (by simp)
    | some api =>
      rw [getApiHit_some hlk] at hget
      obtain ⟨hh2, hapi⟩ := Prod.mk.injEq .. ▸ hget
      subst hh2
      have hapiRef : apiRef = (h ++ [Cell.regCell m]).length :=
        (Option.some.injEq .. ▸ hapi).symm
      have hlen : (h ++ [Cell.regCell m]).length = h.length + 1 := by
        simp
      have hread2 : heapRead ((h ++ [Cell.regCell m]) ++ [Cell.apiCell api])
          p.apisRef = some (.regCell m) := by
        unfold heapRead
        rw [List.getElem?_append_left (by omega)]
        exact hread1
      refine ⟨hread2, by omega, ?_⟩
      intro api'
      unfold heapWrite heapRead
      rw [List.getElem?_set_ne (by omega)]
      exact hread2

def apiW : ServiceApi := { method := strBytes "GET", path := strBytes "/x" }

def mW : List (GoStr × ServiceApi) := [(strBytes "k", apiW)]

def hW : Heap := [.regCell mW]

def hW1 : Heap := hW ++ [.regCell mW]

def pRefW : ProxyRef := { scheme := strBytes "https", host := strBytes "h", apisRef := 1 }

theorem claim10_witness :
    heapRead (heapWrite hW1 0 (.regCell [])) pRefW.apisRef = some (.regCell mW)
    ∧ heapRead (heapWrite (hW1 ++ [Cell.apiCell apiW]) 2
        (.apiCell { method := strBytes "POST", path := strBytes "/y" }))
        pRefW.apisRef = some (.regCell mW) := by
  have h := claim10_registry_copied hW 0 mW (strBytes "https") (strBytes "h")
    rfl hW1 pRefW rfl
  exact ⟨h.2.1 [],
    (h.2.2 (strBytes "k") (hW1 ++ [Cell.apiCell apiW]) 2 (by decide)).2.2
      { method := strBytes "POST", path := strBytes "/y" }⟩
